import Mathlib

/-
Verification of the bluejayson validation core: a shallow embedding of the
validator primitives, the field sanitize pipeline, the schema field registry
and the coercion functions, together with theorems settling the behavioural
claims about them.

Python values are embedded as the inductive type `PyVal` (covering the value
universe the claims manipulate), exceptions as `PyExc`, and fallible Python
code as functions into `Except PyExc _`.
-/

set_option autoImplicit false

namespace BlueJayson

/-- Python exceptions arising in the bluejayson validation core.
`validationFailed` models the library's `ValidationFailed(value, validator,
error_code)`; only the machine-readable error code is retained, since the
other two fields merely echo the call's arguments. The remaining
constructors model the builtin exception classes the code raises, each
carrying its message. -/
inductive PyExc where
  | validationFailed (code : String)
  | typeError (msg : String)
  | valueError (msg : String)
  | runtimeError (msg : String)
  | blueJaysonError (msg : String)
  deriving DecidableEq, Repr

/-- Whether an exception is an instance of `ValidationFailed` (the only
exception class the validators' `except` clauses match besides `TypeError`). -/
def PyExc.isValidationFailed : PyExc → Bool
  | .validationFailed _ => true
  | _ => false

/-- Whether an exception is an instance of `TypeError` (matched by the
`except TypeError` clauses of `Range.validate_sub` and `Length.validate_sub`). -/
def PyExc.isTypeError : PyExc → Bool
  | .typeError _ => true
  | _ => false

/-- The universe of Python values handled by the validation core: `None`,
booleans, (unbounded) integers, strings, and the three `datetime` module
classes. A `datetime`/`date`/`time` value is identified by its ISO string,
which is all the claims under verification depend on. -/
inductive PyVal where
  | none
  | bool (b : Bool)
  | int (n : Int)
  | str (s : String)
  | datetime (iso : String)
  | date (iso : String)
  | time (iso : String)
  deriving DecidableEq, Repr

/-- Result type of an embedded Python call: a value or a raised exception. -/
abbrev PyRes := Except PyExc PyVal

/-- Python `==` on the embedded value universe. Equality is structural
except that `bool` values compare numerically equal to integers
(`True == 1`, `False == 0`), as in Python where `bool` is an `int`
subclass. On these builtin types `==` is total (never raises). -/
def pyEq : PyVal → PyVal → Bool
  | .none, .none => true
  | .bool a, .bool b => a == b
  | .bool a, .int n => (if a then (1 : Int) else 0) == n
  | .int n, .bool a => n == (if a then (1 : Int) else 0)
  | .int m, .int n => m == n
  | .str s, .str t => s == t
  | .datetime a, .datetime b => a == b
  | .date a, .date b => a == b
  | .time a, .time b => a == b
  | _, _ => false

/-- Python truthiness (`bool(v)`) of an embedded value. -/
def truthy : PyVal → Bool
  | .none => false
  | .bool b => b
  | .int n => n != 0
  | .str s => s != ""
  | .datetime _ => true
  | .date _ => true
  | .time _ => true

/-- Python `isinstance(v, bool)`. -/
def PyVal.isBool : PyVal → Bool
  | .bool _ => true
  | _ => false

/-- Numeric view used by Python's builtin comparisons: `bool` participates
as `0`/`1`, `int` as itself. -/
def pyAsNumber : PyVal → Option Int
  | .bool b => some (if b then 1 else 0)
  | .int n => some n
  | _ => Option.none

/-- Auxiliary characterization of `PyExc.isValidationFailed`. -/
theorem isValidationFailed_iff (e : PyExc) :
    e.isValidationFailed = true ↔ ∃ c, e = .validationFailed c := by
  cases e <;> simp [PyExc.isValidationFailed]

/-
Embedding of `BaseValidator.validate` and `BaseValidator.__call__`
(src/src/bluejayson/validators.py, `BaseValidator`). Both are generic in
the subclass hook `validate_sub`, embedded here as an arbitrary function
`PyVal → PyRes` (each concrete validator below supplies its own).
-/

/-- Embedding of `BaseValidator.validate`: calls `validate_sub`, re-raising
`ValidationFailed` (and letting every other exception propagate, since the
`except ValidationFailed: raise` clause catches nothing else), then raises
`RuntimeError` when the returned result is not the `True` singleton. -/
def validate (validate_sub : PyVal → PyRes) (value : PyVal) : PyRes :=
  match validate_sub value with
  | .error e => .error e
  | .ok r =>
      if r = PyVal.bool true then .ok (PyVal.bool true)
      else .error (.runtimeError "validate_sub should have returned either True or raise ValidationFailure")

/-- Embedding of `BaseValidator.__call__`: delegates to `validate` and
converts a raised `ValidationFailed` into returning `False`. -/
def call (validate_sub : PyVal → PyRes) (value : PyVal) : PyRes :=
  match validate validate_sub value with
  | .error (.validationFailed _) => .ok (PyVal.bool false)
  | r => r

/-- C1: for every validator (i.e. every `validate_sub` body) and value,
the boolean call form returns `True` exactly when `validate` returns
without raising, returns `False` exactly when `validate` raises
`ValidationFailed`, and any other exception propagates unchanged through
both `validate` and the call form. -/
theorem validator_call_iff_validate (f : PyVal → PyRes) (v : PyVal) :
    (call f v = .ok (PyVal.bool true) ↔ ∃ r, validate f v = .ok r)
    ∧ (call f v = .ok (PyVal.bool false) ↔ ∃ c, validate f v = .error (.validationFailed c))
    ∧ ∀ e : PyExc, e.isValidationFailed = false →
        ((call f v = .error e ↔ validate f v = .error e)
          ∧ (f v = .error e → validate f v = .error e ∧ call f v = .error e)) := by
  rcases h : f v with e₀ | r₀
  · have hval : validate f v = .error e₀ := by simp [validate, h]
    by_cases hvf : e₀.isValidationFailed = true
    · obtain ⟨c, rfl⟩ := (isValidationFailed_iff e₀).mp hvf
      have hcall : call f v = .ok (PyVal.bool false) := by simp [call, hval]
      refine ⟨by simp [hcall, hval], by simp [hcall, hval], ?_⟩
      intro e he
      have hne : PyExc.validationFailed c ≠ e := by
        rintro rfl
        simp [PyExc.isValidationFailed] at he
      refine ⟨?_, fun hfe => ?_⟩
      · rw [hcall, hval]
        simp [hne]
      · exact absurd (by injection hfe) hne
    · have hcall : call f v = .error e₀ := by
        rw [call, hval]
        cases e₀ <;> simp_all [PyExc.isValidationFailed]
      refine ⟨?_, ?_, ?_⟩
      · rw [hcall, hval]
        simp
      · rw [hcall, hval]
        constructor
        · intro hx
          exact absurd hx (by simp)
        · rintro ⟨c, hc⟩
          injection hc with hc'
          subst hc'
          simp [PyExc.isValidationFailed] at hvf
      · intro e he
        refine ⟨by rw [hcall, hval], fun hfe => ?_⟩
        injection hfe with h2'
        subst h2'
        exact ⟨hval, hcall⟩
  · by_cases hr : r₀ = PyVal.bool true
    · subst hr
      have hval : validate f v = .ok (PyVal.bool true) := by simp [validate, h]
      have hcall : call f v = .ok (PyVal.bool true) := by simp [call, hval]
      refine ⟨by simp [hcall, hval], by simp [hcall, hval], ?_⟩
      intro e he
      refine ⟨by rw [hcall, hval], fun hfe => ?_⟩
      exact absurd hfe (by simp)
    · have hval : validate f v =
          .error (.runtimeError "validate_sub should have returned either True or raise ValidationFailure") := by
        simp [validate, h, hr]
      have hcall : call f v =
          .error (.runtimeError "validate_sub should have returned either True or raise ValidationFailure") := by
        simp [call, hval]
      refine ⟨by simp [hcall, hval], by simp [hcall, hval], ?_⟩
      intro e he
      refine ⟨by rw [hcall, hval], fun hfe => ?_⟩
      exact absurd hfe (by simp)

/-- Witness for C1: a validator body raising `TypeError` propagates that
exact exception through the boolean call form. -/
theorem validator_call_iff_validate_witness :
    call (fun _ => .error (.typeError "boom")) PyVal.none = .error (.typeError "boom") :=
  (((validator_call_iff_validate (fun _ => .error (.typeError "boom")) PyVal.none).2.2
    (.typeError "boom") rfl).2 rfl).2

/-
Embedding of the `Range` validator (src/src/bluejayson/validators.py,
`Range`). Python's rich comparison operators on the embedded value
universe are captured by `pyCompare`.
-/

/-- Python rich comparison on the embedded value universe, as an
`Ordering` (the four operators used by `Range` all derive from it).
Numbers (`int` and `bool`) compare numerically among themselves, strings
lexicographically, and `datetime`/`date`/`time` values within their own
class by their ISO key; any other combination raises `TypeError`, as
Python's rich ordering comparison does for unrelated builtin types. -/
def pyCompare (x y : PyVal) : Except PyExc Ordering :=
  match pyAsNumber x, pyAsNumber y with
  | some a, some b => .ok (if a < b then .lt else if b < a then .gt else .eq)
  | _, _ =>
    match x, y with
    | .str s, .str t => .ok (if s < t then .lt else if t < s then .gt else .eq)
    | .datetime a, .datetime b => .ok (if a < b then .lt else if b < a then .gt else .eq)
    | .date a, .date b => .ok (if a < b then .lt else if b < a then .gt else .eq)
    | .time a, .time b => .ok (if a < b then .lt else if b < a then .gt else .eq)
    | _, _ => .error (.typeError "comparison not supported between operand types")

/-- Configuration of the `Range` validator: optional bounds, the two
inclusivity flags, and the `absorb_cmp_error` flag (all defaults as in the
dataclass declaration). -/
structure Range where
  min : Option PyVal := Option.none
  max : Option PyVal := Option.none
  min_inclusive : Bool := true
  max_inclusive : Bool := true
  absorb_cmp_error : Bool := true

/-- Reading of `>=` from an `Ordering`. -/
def ordGE : Ordering → Bool
  | .lt => false
  | _ => true

/-- Reading of `>` from an `Ordering`. -/
def ordGT : Ordering → Bool
  | .gt => true
  | _ => false

/-- Reading of `<=` from an `Ordering`. -/
def ordLE : Ordering → Bool
  | .gt => false
  | _ => true

/-- Reading of `<` from an `Ordering`. -/
def ordLT : Ordering → Bool
  | .lt => true
  | _ => false

/-- Embedding of `Range._compare_lower`: `self.min is None or
(value >= self.min if self.min_inclusive else value > self.min)`. -/
def Range.compare_lower (r : Range) (value : PyVal) : Except PyExc Bool :=
  match r.min with
  | Option.none => .ok true
  | some m =>
    match pyCompare value m with
    | .error e => .error e
    | .ok o => .ok (if r.min_inclusive then ordGE o else ordGT o)

/-- Embedding of `Range._compare_upper`: `self.max is None or
(value <= self.max if self.max_inclusive else value < self.max)`. -/
def Range.compare_upper (r : Range) (value : PyVal) : Except PyExc Bool :=
  match r.max with
  | Option.none => .ok true
  | some m =>
    match pyCompare value m with
    | .error e => .error e
    | .ok o => .ok (if r.max_inclusive then ordLE o else ordLT o)

/-- The try-block body of `Range.validate_sub`:
`self._compare_lower(value) and self._compare_upper(value)`, with Python's
short-circuit (the upper comparison is not evaluated when the lower one is
false) and exception propagation. -/
def Range.compare_both (r : Range) (value : PyVal) : Except PyExc Bool :=
  match r.compare_lower value with
  | .error e => .error e
  | .ok false => .ok false
  | .ok true => r.compare_upper value

/-- Embedding of `Range.validate_sub`: a `TypeError` from the comparison is
turned into `ValidationFailed('incomparable')` when `absorb_cmp_error` is
set and re-raised raw otherwise; a false comparison raises
`ValidationFailed('out_of_range')`. -/
def Range.validate_sub (r : Range) (value : PyVal) : PyRes :=
  match r.compare_both value with
  | .error e =>
      if e.isTypeError && r.absorb_cmp_error then .error (.validationFailed "incomparable")
      else .error e
  | .ok true => .ok (PyVal.bool true)
  | .ok false => .error (.validationFailed "out_of_range")

/-- A `Range` over integer bounds, applied to an integer, succeeds exactly
when the value satisfies each present bound (strictly when the matching
inclusivity flag is off). -/
theorem range_pass_int_iff (v : Int) (mn mx : Option Int) (mi mxi ab : Bool) :
    Range.validate_sub ⟨mn.map PyVal.int, mx.map PyVal.int, mi, mxi, ab⟩ (.int v)
        = .ok (PyVal.bool true)
    ↔ ((∀ m ∈ mn, if mi then m ≤ v else m < v) ∧ (∀ m ∈ mx, if mxi then v ≤ m else v < m)) := by
  cases mn <;> cases mx <;> cases mi <;> cases mxi <;>
    simp only [Range.validate_sub, Range.compare_both, Range.compare_lower,
      Range.compare_upper, pyCompare, pyAsNumber, Option.map_some', Option.map_none'] <;>
    split_ifs <;>
    (try simp_all [ordGE, ordGT, ordLE, ordLT, Option.mem_def]) <;>
    omega

/-- C2: with integer bounds `a <= b` and default (inclusive) flags, the
`Range` validator accepts both endpoints; with `min_inclusive=False` it
rejects the lower endpoint with error code `out_of_range`; and in general
an integer value passes exactly when it satisfies the lower bound
(`>=`/`>` per flag, vacuously when absent) and the upper bound
(`<=`/`<` per flag, vacuously when absent). -/
theorem range_endpoints_and_bounds (a b : Int) (hab : a ≤ b) :
    Range.validate_sub ⟨some (.int a), some (.int b), true, true, true⟩ (.int a)
        = .ok (PyVal.bool true)
    ∧ Range.validate_sub ⟨some (.int a), some (.int b), true, true, true⟩ (.int b)
        = .ok (PyVal.bool true)
    ∧ Range.validate_sub ⟨some (.int a), some (.int b), false, true, true⟩ (.int a)
        = .error (.validationFailed "out_of_range")
    ∧ ∀ (v : Int) (mn mx : Option Int) (mi mxi ab : Bool),
        (Range.validate_sub ⟨mn.map PyVal.int, mx.map PyVal.int, mi, mxi, ab⟩ (.int v)
            = .ok (PyVal.bool true)
          ↔ ((∀ m ∈ mn, if mi then m ≤ v else m < v)
              ∧ (∀ m ∈ mx, if mxi then v ≤ m else v < m))) := by
  refine ⟨?_, ?_, ?_, fun v mn mx mi mxi ab => range_pass_int_iff v mn mx mi mxi ab⟩
  all_goals
    simp only [Range.validate_sub, Range.compare_both, Range.compare_lower,
      Range.compare_upper, pyCompare, pyAsNumber]
  all_goals
    split_ifs <;> (try simp_all [ordGE, ordGT, ordLE, ordLT]) <;> omega

/-- Witness for C2 at the bounds `2 <= 5`. -/
theorem range_endpoints_and_bounds_witness :
    Range.validate_sub ⟨some (.int 2), some (.int 5), true, true, true⟩ (.int 2)
      = .ok (PyVal.bool true) :=
  (range_endpoints_and_bounds 2 5 (by decide)).1

/-
Embedding of the `Length` validator (src/src/bluejayson/validators.py,
`Length`), including its `__post_init__` argument check, and of the
`Equal` validator.
-/

/-- Python `len(v)` on the embedded value universe: defined for strings
(the sized builtin the claims exercise); every other value raises
`TypeError`, as `len` does for unsized objects. -/
def pyLen : PyVal → Except PyExc Nat
  | .str s => .ok s.length
  | _ => .error (.typeError "object has no length")

/-- Python `isinstance(v, int)`; `bool` is a subclass of `int`. -/
def pyIsInstInt : PyVal → Bool
  | .int _ => true
  | .bool _ => true
  | _ => false

/-- Configuration of the `Length` validator, with the arguments exactly as
passed to the dataclass constructor (the `__post_init__` check below
type-checks them). -/
structure Length where
  min : Option PyVal := Option.none
  max : Option PyVal := Option.none
  equal : Option PyVal := Option.none
  absorb_len_error : Bool := true

/-- The `X is not None and not isinstance(X, int)` checks of
`Length.__post_init__`, for one optional argument. -/
def checkOptInt (o : Option PyVal) (msg : String) : Except PyExc Unit :=
  match o with
  | Option.none => .ok ()
  | some m => if pyIsInstInt m then .ok () else .error (.typeError msg)

/-- Embedding of `Length.__post_init__`: when `equal` is absent it
type-checks `min` then `max`; otherwise it type-checks `equal` only.
There is no other check. -/
def Length.post_init (L : Length) : Except PyExc Unit :=
  match L.equal with
  | Option.none =>
    match checkOptInt L.min "min should be int if provided" with
    | .error e => .error e
    | .ok _ => checkOptInt L.max "max should be int if provided"
  | some e =>
    if pyIsInstInt e then .ok ()
    else .error (.typeError "equal should be int if provided")

/-- Embedding of `Length._compare_lower`:
`self.min is None or self.min <= length`. -/
def Length.compare_lower (L : Length) (length : Nat) : Except PyExc Bool :=
  match L.min with
  | Option.none => .ok true
  | some m =>
    match pyCompare m (.int length) with
    | .error e => .error e
    | .ok o => .ok (ordLE o)

/-- Embedding of `Length._compare_upper`:
`self.max is None or length <= self.max`. -/
def Length.compare_upper (L : Length) (length : Nat) : Except PyExc Bool :=
  match L.max with
  | Option.none => .ok true
  | some m =>
    match pyCompare (.int length) m with
    | .error e => .error e
    | .ok o => .ok (ordLE o)

/-- Embedding of `Length.validate_sub`: computes `len(value)` (absorbing a
`TypeError` into `ValidationFailed('uncomputable_length')` when the flag is
set, re-raising it raw otherwise), then checks
`self._compare_lower(length) and self._compare_upper(length)` with Python's
short-circuit and raises `ValidationFailed('length_out_of_range')` when the
conjunction is false. The `equal` attribute is not consulted anywhere in
this method, mirroring the source. -/
def Length.validate_sub (L : Length) (value : PyVal) : PyRes :=
  match pyLen value with
  | .error e =>
      if e.isTypeError && L.absorb_len_error then .error (.validationFailed "uncomputable_length")
      else .error e
  | .ok length =>
    match L.compare_lower length with
    | .error e => .error e
    | .ok false => .error (.validationFailed "length_out_of_range")
    | .ok true =>
      match L.compare_upper length with
      | .error e => .error e
      | .ok false => .error (.validationFailed "length_out_of_range")
      | .ok true => .ok (PyVal.bool true)

/-- C3 (code bug): constructing `Length(min=0, equal=0)` raises no
configuration error: `Length.__post_init__` only type-checks its arguments
and contains no mutual-exclusion check, although the repository's own test
suite (src/tests/test_validators.py) expects this construction to raise
`ValueError`. -/
theorem length_min_equal_constructs_without_error :
    Length.post_init ⟨some (.int 0), Option.none, some (.int 0), true⟩ = .ok () := rfl

/-- C4 (code bug): `Length(equal=4).validate_sub` accepts the 6-character
string "not ok" (and also accepts "good"): the `equal` attribute is ignored
by `validate_sub`, although the spec sentence and the repository's tests
expect "not ok" to fail with `length_out_of_range`. -/
theorem length_equal_is_ignored :
    Length.validate_sub ⟨Option.none, Option.none, some (.int 4), true⟩ (.str "not ok")
        = .ok (PyVal.bool true)
    ∧ pyLen (.str "not ok") = .ok 6
    ∧ Length.validate_sub ⟨Option.none, Option.none, some (.int 4), true⟩ (.str "good")
        = .ok (PyVal.bool true) :=
  ⟨rfl, rfl, rfl⟩

/-- Configuration of the `Equal` validator: a fixed comparison target and
nothing else (the class declares no comparison function and no strictness
flag). -/
structure Equal where
  target : PyVal

/-- Embedding of `Equal.validate_sub`: `if value != self.target: raise
ValidationFailed(value, self, 'not_matched')`. -/
def Equal.validate_sub (E : Equal) (value : PyVal) : PyRes :=
  if !(pyEq value E.target) then .error (.validationFailed "not_matched")
  else .ok (PyVal.bool true)

/-- C5 (code bug): the outcome of the `Equal` validator is determined
solely by builtin equality with the fixed target — it succeeds exactly
when `value == target` and raises `ValidationFailed('not_matched')`
exactly otherwise. The configurable comparison function and strict flag
the claim describes do not exist in the class, and the `Match` name the
repository's tests import does not exist at all. -/
theorem equal_uses_fixed_equality_only (E : Equal) (v : PyVal) :
    (Equal.validate_sub E v = .ok (PyVal.bool true) ↔ pyEq v E.target = true)
    ∧ (Equal.validate_sub E v = .error (.validationFailed "not_matched")
        ↔ pyEq v E.target = false) := by
  by_cases h : pyEq v E.target <;> simp [Equal.validate_sub, h]

/-
Embedding of the remaining validators (`Predicate`, `InChoices`,
`Regexp`), needed to settle the propagation-policy claim. User-supplied
functions (predicates, comparison functions, post-validation functions)
are embedded as arbitrary functions into `PyRes`; the compiled pattern of
a `Regexp` is embedded as its `fullmatch` function, returning the match
object (`some`) or `None`.
-/

/-- Configuration of the `Predicate` validator (the construction-time
signature check of the predicate is not modelled; it concerns Python
callable shapes only). -/
structure Predicate where
  pred : PyVal → PyRes
  strict : Bool := true

/-- Embedding of `Predicate.validate_sub`: calls the predicate (exceptions
propagate), raises `TypeError` on a non-boolean result in strict mode, and
raises `ValidationFailed('not_satisfied')` on a falsy result. -/
def Predicate.validate_sub (P : Predicate) (value : PyVal) : PyRes :=
  match P.pred value with
  | .error e => .error e
  | .ok result =>
    if P.strict && !result.isBool then
      .error (.typeError "predicate must return boolean in strict mode")
    else if !truthy result then .error (.validationFailed "not_satisfied")
    else .ok (PyVal.bool true)

/-- Configuration of the `InChoices` validator. -/
structure InChoices where
  choices : List PyVal
  compare : PyVal → PyVal → PyRes
  strict : Bool := true

/-- The `for choice in self.choices` loop of `InChoices.validate_sub`. -/
def InChoices.go (I : InChoices) (value : PyVal) : List PyVal → PyRes
  | [] => .error (.validationFailed "not_found")
  | ch :: cs =>
    match I.compare value ch with
    | .error e => .error e
    | .ok result =>
      if I.strict && !result.isBool then
        .error (.typeError "compare function must return boolean in strict mode")
      else if truthy result then .ok (PyVal.bool true)
      else InChoices.go I value cs

/-- Embedding of `InChoices.validate_sub`: iterates the choices in order,
returning on the first truthy comparison and raising
`ValidationFailed('not_found')` after the loop. -/
def InChoices.validate_sub (I : InChoices) (value : PyVal) : PyRes :=
  I.go value I.choices

/-- Configuration of the `Regexp` validator; the compiled pattern is
represented by its `fullmatch` function. -/
structure Regexp where
  fullmatch : String → Option PyVal
  post_validate : Option (PyVal → PyRes) := Option.none
  strict : Bool := true

/-- Embedding of `Regexp.validate_sub`: non-strings fail with
`not_string`; a failed full match raises `not_matched`; an optional
post-validation function is then applied to the match object with the
same strict/falsy handling as `Predicate`. -/
def Regexp.validate_sub (R : Regexp) (value : PyVal) : PyRes :=
  match value with
  | .str s =>
    match R.fullmatch s with
    | Option.none => .error (.validationFailed "not_matched")
    | some m =>
      match R.post_validate with
      | Option.none => .ok (PyVal.bool true)
      | some pv =>
        match pv m with
        | .error e => .error e
        | .ok result =>
          if R.strict && !result.isBool then
            .error (.typeError "post validation function must return boolean in strict mode")
          else if !truthy result then .error (.validationFailed "not_satisfied")
          else .ok (PyVal.bool true)
  | _ => .error (.validationFailed "not_string")

/-- Any exception raised by the builtin rich comparison is a `TypeError`. -/
theorem pyCompare_error_isTypeError (x y : PyVal) (e : PyExc)
    (h : pyCompare x y = .error e) : e.isTypeError = true := by
  cases x <;> cases y <;> simp only [pyCompare, pyAsNumber] at h <;>
    (first
      | (injection h with h'; subst h'; rfl)
      | simp at h)

/-- Any exception raised during `Range._compare_lower` is a `TypeError`. -/
theorem range_compare_lower_error_isTypeError (r : Range) (v : PyVal) (e : PyExc)
    (h : r.compare_lower v = .error e) : e.isTypeError = true := by
  unfold Range.compare_lower at h
  split at h
  · simp at h
  · split at h
    · rename_i m hm e' he
      injection h with h'
      subst h'
      exact pyCompare_error_isTypeError _ _ _ he
    · simp at h

/-- Any exception raised during `Range._compare_upper` is a `TypeError`. -/
theorem range_compare_upper_error_isTypeError (r : Range) (v : PyVal) (e : PyExc)
    (h : r.compare_upper v = .error e) : e.isTypeError = true := by
  unfold Range.compare_upper at h
  split at h
  · simp at h
  · split at h
    · rename_i m hm e' he
      injection h with h'
      subst h'
      exact pyCompare_error_isTypeError _ _ _ he
    · simp at h

/-- Any exception raised inside the try-block of `Range.validate_sub` is a
`TypeError`. -/
theorem range_compare_both_error_isTypeError (r : Range) (v : PyVal) (e : PyExc)
    (h : r.compare_both v = .error e) : e.isTypeError = true := by
  unfold Range.compare_both at h
  split at h
  · rename_i e' he
    injection h with h'
    subst h'
    exact range_compare_lower_error_isTypeError r v _ he
  · simp at h
  · exact range_compare_upper_error_isTypeError r v e h

/-- Any exception raised by builtin `len` is a `TypeError`. -/
theorem pyLen_error_isTypeError (v : PyVal) (e : PyExc)
    (h : pyLen v = .error e) : e.isTypeError = true := by
  cases v <;> simp only [pyLen] at h <;>
    (first
      | (injection h with h'; subst h'; rfl)
      | simp at h)

/-- Any exception raised during `Length._compare_lower` or
`Length._compare_upper` is a `TypeError`. -/
theorem length_compare_error_isTypeError (L : Length) (n : Nat) (e : PyExc)
    (h : L.compare_lower n = .error e ∨ L.compare_upper n = .error e) :
    e.isTypeError = true := by
  rcases h with h | h
  · unfold Length.compare_lower at h
    split at h
    · simp at h
    · split at h
      · rename_i m hm e' he
        injection h with h'
        subst h'
        exact pyCompare_error_isTypeError _ _ _ he
      · simp at h
  · unfold Length.compare_upper at h
    split at h
    · simp at h
    · split at h
      · rename_i m hm e' he
        injection h with h'
        subst h'
        exact pyCompare_error_isTypeError _ _ _ he
      · simp at h

/-- Validation-failure codes producible by the `InChoices` loop. -/
theorem inChoices_go_vf (I : InChoices) (v : PyVal) (cs : List PyVal) (c : String)
    (h : I.go v cs = .error (.validationFailed c)) :
    c = "not_found" ∨ ∃ ch ∈ cs, I.compare v ch = .error (.validationFailed c) := by
  induction cs with
  | nil =>
    left
    unfold InChoices.go at h
    injection h with h'
    injection h' with h''
    exact h''.symm
  | cons ch cs ih =>
    unfold InChoices.go at h
    split at h
    · rename_i e he
      injection h with h'
      subst h'
      exact Or.inr ⟨ch, List.mem_cons_self ch cs, he⟩
    · split_ifs at h
      · simp at h
      · rcases ih h with h1 | ⟨ch', hmem, hc⟩
        · exact Or.inl h1
        · exact Or.inr ⟨ch', List.mem_cons_of_mem ch hmem, hc⟩

/-- C6: conversion of an operational exception into a `ValidationFailed`
happens only on the two explicitly-flagged absorb paths. A `TypeError`
from the `Range` comparison becomes `ValidationFailed('incomparable')`
exactly when `absorb_cmp_error` is set and is re-raised raw otherwise; a
`TypeError` from `len` in `Length` becomes
`ValidationFailed('uncomputable_length')` exactly when `absorb_len_error`
is set and is re-raised raw otherwise; and no validator produces a
`ValidationFailed` other than its own designated codes or one raised by a
user-supplied function itself. -/
theorem absorb_flags_control_conversion :
    (∀ (r : Range) (v : PyVal) (e : PyExc), r.compare_both v = .error e →
        r.validate_sub v =
          (if e.isTypeError && r.absorb_cmp_error then .error (.validationFailed "incomparable")
            else .error e))
    ∧ (∀ (L : Length) (v : PyVal) (e : PyExc), pyLen v = .error e →
        L.validate_sub v =
          (if e.isTypeError && L.absorb_len_error then .error (.validationFailed "uncomputable_length")
            else .error e))
    ∧ (∀ (P : Predicate) (v : PyVal) (e : PyExc), P.pred v = .error e →
        P.validate_sub v = .error e)
    ∧ (∀ (P : Predicate) (v : PyVal) (c : String),
        P.validate_sub v = .error (.validationFailed c) →
        c = "not_satisfied" ∨ P.pred v = .error (.validationFailed c))
    ∧ (∀ (E : Equal) (v : PyVal) (c : String),
        E.validate_sub v = .error (.validationFailed c) → c = "not_matched")
    ∧ (∀ (r : Range) (v : PyVal) (c : String),
        r.validate_sub v = .error (.validationFailed c) →
        c = "incomparable" ∨ c = "out_of_range")
    ∧ (∀ (L : Length) (v : PyVal) (c : String),
        L.validate_sub v = .error (.validationFailed c) →
        c = "uncomputable_length" ∨ c = "length_out_of_range")
    ∧ (∀ (I : InChoices) (v : PyVal) (c : String),
        I.validate_sub v = .error (.validationFailed c) →
        c = "not_found" ∨ ∃ ch ∈ I.choices, I.compare v ch = .error (.validationFailed c))
    ∧ (∀ (R : Regexp) (v : PyVal) (c : String),
        R.validate_sub v = .error (.validationFailed c) →
        c = "not_string" ∨ c = "not_matched" ∨ c = "not_satisfied"
          ∨ ∃ pv m, R.post_validate = some pv ∧ pv m = .error (.validationFailed c)) := by
  refine ⟨?_, ?_, ?_, ?_, ?_, ?_, ?_, ?_, ?_⟩
  · intro r v e h
    simp only [Range.validate_sub, h]
  · intro L v e h
    simp only [Length.validate_sub, h]
  · intro P v e h
    simp only [Predicate.validate_sub, h]
  · intro P v c h
    unfold Predicate.validate_sub at h
    split at h
    · rename_i e he
      injection h with h'
      subst h'
      exact Or.inr he
    · split_ifs at h
      · simp at h
      · left
        injection h with h'
        injection h' with h''
        exact h''.symm
  · intro E v c h
    unfold Equal.validate_sub at h
    split_ifs at h
    injection h with h'
    injection h' with h''
    exact h''.symm
  · intro r v c h
    unfold Range.validate_sub at h
    split at h
    · rename_i e he
      split_ifs at h with habs
      · left
        injection h with h'
        injection h' with h''
        exact h''.symm
      · injection h with h'
        subst h'
        have := range_compare_both_error_isTypeError r v _ he
        simp [PyExc.isTypeError] at this
    · simp at h
    · right
      injection h with h'
      injection h' with h''
      exact h''.symm
  · intro L v c h
    unfold Length.validate_sub at h
    split at h
    · rename_i e he
      split_ifs at h with habs
      · left
        injection h with h'
        injection h' with h''
        exact h''.symm
      · injection h with h'
        subst h'
        have := pyLen_error_isTypeError v _ he
        simp [PyExc.isTypeError] at this
    · rename_i n hn
      split at h
      · rename_i e he
        injection h with h'
        subst h'
        have := length_compare_error_isTypeError L n _ (Or.inl he)
        simp [PyExc.isTypeError] at this
      · right
        injection h with h'
        injection h' with h''
        exact h''.symm
      · split at h
        · rename_i e he
          injection h with h'
          subst h'
          have := length_compare_error_isTypeError L n _ (Or.inr he)
          simp [PyExc.isTypeError] at this
        · right
          injection h with h'
          injection h' with h''
          exact h''.symm
        · simp at h
  · intro I v c h
    exact inChoices_go_vf I v I.choices c h
  · intro R v c h
    cases v
    case str s =>
      simp only [Regexp.validate_sub] at h
      rcases hfm : R.fullmatch s with _ | m
      · simp only [hfm] at h
        right; left
        injection h with h'
        injection h' with h''
        exact h''.symm
      · simp only [hfm] at h
        rcases hpv : R.post_validate with _ | pv
        · simp only [hpv] at h
          exact absurd h (by simp)
        · simp only [hpv] at h
          rcases hres : pv m with e | result
          · simp only [hres] at h
            injection h with h'
            subst h'
            exact Or.inr (Or.inr (Or.inr ⟨pv, m, rfl, hres⟩))
          · simp only [hres] at h
            by_cases h1 : (R.strict && !result.isBool) = true
            · rw [if_pos h1] at h
              exact absurd h (by simp)
            · rw [if_neg h1] at h
              by_cases h2 : (!truthy result) = true
              · rw [if_pos h2] at h
                right; right; left
                injection h with h'
                injection h' with h''
                exact h''.symm
              · rw [if_neg h2] at h
                exact absurd h (by simp)
    all_goals
      (left
       simp only [Regexp.validate_sub] at h
       injection h with h'
       injection h' with h''
       exact h''.symm)

/-- Witness for C6: a predicate raising `TypeError` propagates that exact
exception unconverted through `Predicate.validate_sub`. -/
theorem absorb_flags_control_conversion_witness :
    Predicate.validate_sub ⟨fun _ => .error (.typeError "cfg"), true⟩ PyVal.none
      = .error (.typeError "cfg") :=
  absorb_flags_control_conversion.2.2.1
    ⟨fun _ => .error (.typeError "cfg"), true⟩ PyVal.none (.typeError "cfg") rfl


/-
Embedding of the schema field registry (src/bluejayson/schema.py,
`SchemaMeta._gather_all_fields`). The contents of the `OrderedDict` are
represented as a list of key-value pairs in insertion order; a Python
`d[name] = field` assignment keeps an existing key's position with its
value updated in place, and appends a new key at the end. The field
objects stored are opaque here (`F`).
-/

/-- The contents of an ordered name-keyed field mapping, in insertion
order. -/
abbrev FieldMap (F : Type) := List (String × F)

/-- The key sequence of an ordered mapping. -/
def odKeys {F : Type} (m : FieldMap F) : List String :=
  m.map Prod.fst

/-- The binding of a key in an ordered mapping (`d[k]`, as an `Option`). -/
def odLookup {F : Type} (m : FieldMap F) (k : String) : Option F :=
  (m.find? fun p => p.1 == k).map Prod.snd

/-- A single `d[k] = f` assignment on an ordered mapping: an existing key
keeps its position with its value updated in place; a new key is appended
at the end. -/
def odSet {F : Type} : FieldMap F → String → F → FieldMap F
  | [], k, f => [(k, f)]
  | p :: m, k, f => if p.1 == k then (k, f) :: m else p :: odSet m k f

/-- The `for name, field in items: all_fields[name] = field` loop of
`_gather_all_fields`, merging `items` into the accumulated mapping. -/
def odMerge {F : Type} (acc : FieldMap F) (items : FieldMap F) : FieldMap F :=
  items.foldl (fun a p => odSet a p.1 p.2) acc

/-- Embedding of `SchemaMeta._gather_all_fields`: starting from an empty
`OrderedDict`, merge each ancestor's already-aggregated field mapping in
reversed method-resolution order (the `ancestors` list is given in that
order, most-base first), then overlay the class's own directly-declared
fields in declaration order. -/
def gather_all_fields {F : Type} (ancestors : List (FieldMap F)) (own : FieldMap F) : FieldMap F :=
  odMerge (ancestors.foldl odMerge []) own

/-- Keys after an assignment: unchanged for an existing key, the new key
appended otherwise. -/
theorem odKeys_odSet {F : Type} (m : FieldMap F) (k : String) (f : F) :
    odKeys (odSet m k f) = if k ∈ odKeys m then odKeys m else odKeys m ++ [k] := by
  induction m with
  | nil => simp [odSet, odKeys]
  | cons p m ih =>
    by_cases hpk : (p.1 == k) = true
    · have hk : k = p.1 := (eq_of_beq hpk).symm
      simp only [odSet, if_pos hpk, odKeys, List.map_cons]
      rw [if_pos (by simp [hk])]
      simp [hk]
    · have hk : k ≠ p.1 := fun hc => hpk (by simp [hc])
      simp only [odSet, if_neg hpk, odKeys, List.map_cons]
      by_cases hmem : k ∈ odKeys m
      · rw [if_pos (by simp [odKeys] at hmem ⊢; exact Or.inr hmem)]
        have := ih
        rw [if_pos hmem] at this
        simp only [odKeys] at this
        rw [this]
      · rw [if_neg (by simp [odKeys] at hmem ⊢; exact ⟨fun hc => hk hc, hmem⟩)]
        have := ih
        rw [if_neg hmem] at this
        simp only [odKeys] at this
        rw [this]
        simp

/-- An assignment preserves key uniqueness. -/
theorem nodup_odKeys_odSet {F : Type} (m : FieldMap F) (k : String) (f : F)
    (h : (odKeys m).Nodup) : (odKeys (odSet m k f)).Nodup := by
  rw [odKeys_odSet]
  by_cases hmem : k ∈ odKeys m
  · rwa [if_pos hmem]
  · rw [if_neg hmem, ← List.concat_eq_append]
    exact List.Nodup.concat hmem h

/-- Merging only ever appends new keys after the existing ones. -/
theorem odMerge_keys_extend {F : Type} (items : FieldMap F) :
    ∀ acc : FieldMap F, ∃ t, odKeys (odMerge acc items) = odKeys acc ++ t := by
  induction items with
  | nil => exact fun acc => ⟨[], by simp [odMerge]⟩
  | cons p rest ih =>
    intro acc
    obtain ⟨t, ht⟩ := ih (odSet acc p.1 p.2)
    have hcons : odMerge acc (p :: rest) = odMerge (odSet acc p.1 p.2) rest := rfl
    rw [hcons, ht, odKeys_odSet]
    by_cases hmem : p.1 ∈ odKeys acc
    · exact ⟨t, by rw [if_pos hmem]⟩
    · exact ⟨[p.1] ++ t, by rw [if_neg hmem, List.append_assoc]⟩

/-- Merging preserves key uniqueness. -/
theorem nodup_odKeys_odMerge {F : Type} (items : FieldMap F) :
    ∀ acc : FieldMap F, (odKeys acc).Nodup → (odKeys (odMerge acc items)).Nodup := by
  induction items with
  | nil => exact fun _ h => h
  | cons p rest ih =>
    intro acc h
    exact ih (odSet acc p.1 p.2) (nodup_odKeys_odSet acc p.1 p.2 h)

/-- The ancestor-merge loop preserves key uniqueness. -/
theorem nodup_odKeys_foldl_odMerge {F : Type} (ms : List (FieldMap F)) :
    ∀ acc : FieldMap F, (odKeys acc).Nodup → (odKeys (ms.foldl odMerge acc)).Nodup := by
  induction ms with
  | nil => exact fun _ h => h
  | cons m rest ih =>
    intro acc h
    exact ih (odMerge acc m) (nodup_odKeys_odMerge m acc h)

/-- After `d[k] = f`, looking up `k` yields `f`. -/
theorem odLookup_odSet_self {F : Type} (m : FieldMap F) (k : String) (f : F) :
    odLookup (odSet m k f) k = some f := by
  induction m with
  | nil => simp [odSet, odLookup]
  | cons p m ih =>
    by_cases hpk : (p.1 == k) = true
    · simp only [odSet, if_pos hpk]
      unfold odLookup
      simp only [List.find?_cons, beq_self_eq_true]
      rfl
    · have hpkf : (p.1 == k) = false := by simpa using hpk
      simp only [odSet, if_neg hpk]
      unfold odLookup
      simp only [List.find?_cons, hpkf]
      exact ih

/-- After `d[k] = f`, the binding of any other key is unchanged. -/
theorem odLookup_odSet_other {F : Type} (m : FieldMap F) (k k' : String) (f : F)
    (hne : k' ≠ k) : odLookup (odSet m k f) k' = odLookup m k' := by
  have hkk' : (k == k') = false := by
    simp only [beq_eq_false_iff_ne, ne_eq]
    exact fun hc => hne hc.symm
  induction m with
  | nil =>
    simp only [odSet, odLookup]
    simp [List.find?_cons, hkk']
  | cons p m ih =>
    by_cases hpk : (p.1 == k) = true
    · have hpk'f : (p.1 == k') = false := by
        rw [eq_of_beq hpk]
        exact hkk'
      simp only [odSet, if_pos hpk]
      unfold odLookup
      simp only [List.find?_cons, hkk', hpk'f]
    · simp only [odSet, if_neg hpk]
      unfold odLookup
      by_cases hpk' : (p.1 == k') = true
      · simp only [List.find?_cons, hpk']
      · have hpk'f : (p.1 == k') = false := by simpa using hpk'
        simp only [List.find?_cons, hpk'f]
        exact ih

/-- Merging a mapping that does not contain a key leaves that key's
binding unchanged. -/
theorem odLookup_odMerge_of_not_mem {F : Type} (items : FieldMap F) :
    ∀ (acc : FieldMap F) (k : String), k ∉ odKeys items →
      odLookup (odMerge acc items) k = odLookup acc k := by
  induction items with
  | nil => exact fun _ _ _ => rfl
  | cons p rest ih =>
    intro acc k hk
    have hk1 : k ∉ odKeys rest := by
      simp only [odKeys, List.map_cons, List.mem_cons] at hk
      exact fun hc => hk (Or.inr (by simpa [odKeys] using hc))
    have hkp : k ≠ p.1 := by
      simp only [odKeys, List.map_cons, List.mem_cons] at hk
      exact fun hc => hk (Or.inl hc)
    have hcons : odMerge acc (p :: rest) = odMerge (odSet acc p.1 p.2) rest := rfl
    rw [hcons, ih (odSet acc p.1 p.2) k hk1]
    exact odLookup_odSet_other acc p.1 k p.2 hkp

/-- Overlaying a declaration list with unique names binds each declared
name to its declared field. -/
theorem odLookup_odMerge_own {F : Type} (own : FieldMap F) :
    ∀ (acc : FieldMap F) (k : String) (f : F),
      (odKeys own).Nodup → (k, f) ∈ own →
      odLookup (odMerge acc own) k = some f := by
  induction own with
  | nil => intro _ _ _ _ hmem; exact absurd hmem (List.not_mem_nil _)
  | cons p rest ih =>
    intro acc k f hnodup hmem
    have hcons : odMerge acc (p :: rest) = odMerge (odSet acc p.1 p.2) rest := rfl
    rcases List.mem_cons.mp hmem with heq | htail
    · subst heq
      have hknotin : k ∉ odKeys rest := by
        simp only [odKeys, List.map_cons, List.nodup_cons] at hnodup
        exact fun hc => hnodup.1 (by simpa [odKeys] using hc)
      rw [hcons, odLookup_odMerge_of_not_mem rest (odSet acc k f) k hknotin]
      exact odLookup_odSet_self acc k f
    · have hnodup' : (odKeys rest).Nodup := by
        simp only [odKeys, List.map_cons, List.nodup_cons] at hnodup
        exact hnodup.2
      rw [hcons]
      exact ih (odSet acc p.1 p.2) k f hnodup' htail

/-- C7: the aggregated field registry has unique names; every name already
present in the merged ancestor registry keeps its position there (in
particular a redeclared parent field name keeps its original declaration
position); and every name declared by the class itself is bound to the
class's own (new) field definition. -/
theorem schema_gather_all_fields_registry {F : Type}
    (ancestors : List (FieldMap F)) (own : FieldMap F) :
    (odKeys (gather_all_fields ancestors own)).Nodup
    ∧ (∀ k, k ∈ odKeys (ancestors.foldl odMerge []) →
        (odKeys (gather_all_fields ancestors own)).indexOf k
          = (odKeys (ancestors.foldl odMerge [])).indexOf k)
    ∧ ((odKeys own).Nodup → ∀ k f, (k, f) ∈ own →
        odLookup (gather_all_fields ancestors own) k = some f) := by
  have hbase : (odKeys (ancestors.foldl odMerge [])).Nodup :=
    nodup_odKeys_foldl_odMerge ancestors [] (by simp [odKeys])
  refine ⟨nodup_odKeys_odMerge own _ hbase, ?_, ?_⟩
  · intro k hk
    obtain ⟨t, ht⟩ := odMerge_keys_extend own (ancestors.foldl odMerge [])
    unfold gather_all_fields
    rw [ht]
    exact List.indexOf_append_of_mem hk
  · intro hnodup k f hmem
    exact odLookup_odMerge_own own (ancestors.foldl odMerge []) k f hnodup hmem

/-- Witness for C7: a subclass redeclaring field "a" over a parent with
fields "a", "b" keeps "a" in first position and rebinds it to the new
definition. -/
theorem schema_gather_all_fields_registry_witness :
    odLookup (gather_all_fields [[("a", (0 : Nat)), ("b", 1)]] [("a", 2)]) "a" = some 2
    ∧ (odKeys (gather_all_fields [[("a", (0 : Nat)), ("b", 1)]] [("a", 2)])).indexOf "a"
        = (odKeys ([[("a", (0 : Nat)), ("b", 1)]].foldl odMerge [])).indexOf "a" :=
  ⟨(schema_gather_all_fields_registry [[("a", (0 : Nat)), ("b", 1)]] [("a", 2)]).2.2
      (by simp [odKeys]) "a" 2 (by simp),
    (schema_gather_all_fields_registry [[("a", (0 : Nat)), ("b", 1)]] [("a", 2)]).2.1
      "a" (by simp [odKeys, odMerge, odSet])⟩

/-
Embedding of the default coercion functions
(src/src/bluejayson/coercions.py) and of the field sanitize pipeline
(src/src/bluejayson/fields.py, `FieldFactory.resolve_coerce_func`,
`Field._coerce_value`, `Field._validate_value`, `Field.sanitize`).
-/

/-- The declared field types relevant to the coercion table; all are
concrete (non-abstract) classes, so `coerce='auto'` resolves to `True`
for each of them. -/
inductive DType where
  | bool
  | int
  | str
  | datetime
  | date
  | time
  deriving DecidableEq, Repr

/-- Python `isinstance(v, t)` for the declared types: `bool` values are
`int` instances (subclass) and `datetime` values are `date` instances
(subclass). -/
def isinstance (v : PyVal) (t : DType) : Bool :=
  match v, t with
  | .bool _, .bool => true
  | .bool _, .int => true
  | .int _, .int => true
  | .str _, .str => true
  | .datetime _, .datetime => true
  | .datetime _, .date => true
  | .date _, .date => true
  | .time _, .time => true
  | _, _ => false

/-- Python whitespace as recognized by `str.strip()` (space, tab, and the
newline-class characters). -/
def pyIsSpace (c : Char) : Bool :=
  c == ' ' || c == '\t' || c == '\n' || c == '\r' || c == Char.ofNat 11 || c == Char.ofNat 12

/-- Python `str.strip()`: remove whitespace from both ends. -/
def pyStrip (s : String) : String :=
  ⟨((s.data.dropWhile pyIsSpace).reverse.dropWhile pyIsSpace).reverse⟩

/-- Python `str.lower()` (ASCII case folding suffices for the flag words
the coercion matches). -/
def pyLower (s : String) : String :=
  ⟨s.data.map Char.toLower⟩

/-- Embedding of `coerce_boolean_flag`: a `bool` input is returned
unchanged before any string handling; a string is stripped of surrounding
whitespace and lowercased, then matched against the recognized flag words,
raising `ValueError` for any other string; any other input raises
`TypeError`. -/
def coerce_boolean_flag (value : PyVal) : PyRes :=
  match value with
  | .bool b => .ok (.bool b)
  | .str s =>
    if pyLower (pyStrip s) ∈ ["1", "y", "yes", "true", "on"] then .ok (.bool true)
    else if pyLower (pyStrip s) ∈ ["0", "n", "no", "false", "off"] then .ok (.bool false)
    else .error (.valueError "cannot convert given value flag to boolean")
  | _ => .error (.typeError "cannot convert given value flag to boolean")

/-- Embedding of `datetime.fromisoformat`: requires a string argument
(`TypeError` otherwise). Parsing itself is modelled as total on strings,
keyed by the ISO text, since no claim depends on rejecting a malformed
string. -/
def datetime_fromisoformat (value : PyVal) : PyRes :=
  match value with
  | .str s => .ok (.datetime s)
  | _ => .error (.typeError "fromisoformat: argument must be str")

/-- Embedding of `date.fromisoformat` (same contract as the datetime
parser). -/
def date_fromisoformat (value : PyVal) : PyRes :=
  match value with
  | .str s => .ok (.date s)
  | _ => .error (.typeError "fromisoformat: argument must be str")

/-- Embedding of `time.fromisoformat` (same contract as the datetime
parser). -/
def time_fromisoformat (value : PyVal) : PyRes :=
  match value with
  | .str s => .ok (.time s)
  | _ => .error (.typeError "fromisoformat: argument must be str")

/-- Python `int(x)` (the constructor fallback for an `int` field): ints
pass through, `bool` converts to 0/1, a string is parsed as an integer
(`ValueError` when malformed), anything else raises `TypeError`. -/
def int_ctor (value : PyVal) : PyRes :=
  match value with
  | .int n => .ok (.int n)
  | .bool b => .ok (.int (if b then 1 else 0))
  | .str s =>
    match (pyStrip s).toInt? with
    | some n => .ok (.int n)
    | Option.none => .error (.valueError "invalid literal for int")
  | _ => .error (.typeError "int argument must be a string or a number")

/-- Python `str(x)` (the constructor fallback for a `str` field): total. -/
def str_ctor (value : PyVal) : PyRes :=
  match value with
  | .str s => .ok (.str s)
  | .bool b => .ok (.str (if b then "True" else "False"))
  | .int n => .ok (.str (toString n))
  | .none => .ok (.str "None")
  | .datetime s => .ok (.str s)
  | .date s => .ok (.str s)
  | .time s => .ok (.str s)

/-- Python `bool(x)` (constructor fallback; unreachable through the
resolver because the table maps `bool`): truthiness. -/
def bool_ctor (value : PyVal) : PyRes :=
  .ok (.bool (truthy value))

/-- Embedding of `DEFAULT_COERCE_FUNCS`: the `datetime` classes map to
their ISO parsers and `bool` to the boolean-flag parser; `int` and `str`
are absent from the table. -/
def DEFAULT_COERCE_FUNCS : DType → Option (PyVal → PyRes)
  | .datetime => some datetime_fromisoformat
  | .date => some date_fromisoformat
  | .time => some time_fromisoformat
  | .bool => some coerce_boolean_flag
  | _ => Option.none

/-- A declared type called as a one-argument constructor — the
`coerce_funcs.get(dtype, dtype)` fallback. The `datetime` classes cannot
be called with one positional argument (`TypeError`); these entries are
unreachable through the resolver since the table covers them. -/
def dtype_ctor : DType → (PyVal → PyRes)
  | .int => int_ctor
  | .str => str_ctor
  | .bool => bool_ctor
  | .datetime => fun _ => .error (.typeError "constructor requires several arguments")
  | .date => fun _ => .error (.typeError "constructor requires several arguments")
  | .time => fun _ => .error (.typeError "constructor requires several arguments")

/-- The `coerce` argument of a `Field`: `'auto'` (the default), a boolean,
or an explicit coercion function. -/
inductive CoerceSpec where
  | auto
  | flag (b : Bool)
  | func (f : PyVal → PyRes)

/-- Embedding of `FieldFactory.resolve_coerce_func` for the default
factory (whose table is `DEFAULT_COERCE_FUNCS`): `'auto'` becomes `True`
because none of the modelled declared types is abstract; `True` looks the
type up in the table, falling back to the type itself as a constructor;
`False` disables coercion; an explicit function is returned as-is. -/
def resolve_coerce_func (dtype : DType) (specifier : CoerceSpec) : Option (PyVal → PyRes) :=
  match specifier with
  | .auto => some ((DEFAULT_COERCE_FUNCS dtype).getD (dtype_ctor dtype))
  | .flag true => some ((DEFAULT_COERCE_FUNCS dtype).getD (dtype_ctor dtype))
  | .flag false => Option.none
  | .func f => some f

/-- A `Field`: declared type, coercion specifier, and the attached
validators, each embedded by its `validate` entry point (the
`_validate_value` loop calls `validator.validate(value)` on each
`BaseValidator` among the extra annotations). -/
structure Field where
  dtype : DType
  coerce : CoerceSpec := .auto
  validators : List (PyVal → PyRes) := []

/-- Embedding of `Field._coerce_value`: when a coercion function resolves,
apply it and require the result to be an instance of the declared type
(structured `BlueJaysonError` otherwise); when none resolves, require the
input itself to be an instance of the declared type. -/
def Field.coerce_value (F : Field) (value : PyVal) : PyRes :=
  match resolve_coerce_func F.dtype F.coerce with
  | some c =>
    match c value with
    | .error e => .error e
    | .ok v' =>
      if isinstance v' F.dtype then .ok v'
      else .error (.blueJaysonError "failed to coerce input value to type")
  | Option.none =>
    if isinstance value F.dtype then .ok value
    else .error (.blueJaysonError "input value mismatched from type")

/-- Embedding of `Field._validate_value`: run each attached validator in
order on the value; the first exception aborts the pipeline. -/
def validate_value (validators : List (PyVal → PyRes)) (value : PyVal) : Except PyExc Unit :=
  match validators with
  | [] => .ok ()
  | f :: fs =>
    match f value with
    | .error e => .error e
    | .ok _ => validate_value fs value

/-- Embedding of `Field.sanitize`: `_coerce_value`, then
`_validate_value`, then return the coerced value. -/
def Field.sanitize (F : Field) (value : PyVal) : PyRes :=
  match F.coerce_value value with
  | .error e => .error e
  | .ok v' =>
    match validate_value F.validators v' with
    | .error e => .error e
    | .ok _ => .ok v'

/-- The validator loop succeeds exactly when every attached validator
accepts the value. -/
theorem validate_value_ok_iff (validators : List (PyVal → PyRes)) (value : PyVal) :
    validate_value validators value = .ok () ↔ ∀ f ∈ validators, ∃ r, f value = .ok r := by
  induction validators with
  | nil => simp [validate_value]
  | cons f fs ih =>
    constructor
    · intro h
      unfold validate_value at h
      rcases hf : f value with e | r
      · rw [hf] at h
        exact absurd h (by simp)
      · rw [hf] at h
        intro g hg
        rcases List.mem_cons.mp hg with rfl | hg'
        · exact ⟨r, hf⟩
        · exact (ih.mp h) g hg'
    · intro h
      obtain ⟨r, hf⟩ := h f (List.mem_cons_self f fs)
      unfold validate_value
      rw [hf]
      exact ih.mpr fun g hg => h g (List.mem_cons_of_mem f hg)

/-- A successful `_coerce_value` yields an instance of the declared type. -/
theorem coerce_value_ok_isinstance (F : Field) (x y : PyVal)
    (h : F.coerce_value x = .ok y) : isinstance y F.dtype = true := by
  unfold Field.coerce_value at h
  split at h
  · rename_i c hc
    split at h
    · exact absurd h (by simp)
    · rename_i v' hv'
      split_ifs at h with hinst
      · injection h with h'
        subst h'
        exact hinst
  · split_ifs at h with hinst
    · injection h with h'
      subst h'
      exact hinst

/-- C8 counterexample: for a `datetime` field with the default `'auto'`
coercion and no validators, an already-sanitized value — an instance of
the declared type that passes all (zero) attached validators — is not
returned unchanged: `sanitize` raises `TypeError`, because the resolved
coercion `datetime.fromisoformat` rejects non-string input. -/
theorem field_sanitize_not_idempotent_on_datetime :
    isinstance (.datetime "2020-01-01T00:00:00") DType.datetime = true
    ∧ Field.sanitize ⟨DType.datetime, .auto, []⟩ (.datetime "2020-01-01T00:00:00")
        = .error (.typeError "fromisoformat: argument must be str") :=
  ⟨rfl, rfl⟩

/-- C8 (amended): `Field.sanitize` is idempotent on sanitized values for
every field whose resolved coercion function, when one resolves, fixes
each instance of the declared type — this covers coercion disabled and
`bool` fields under the default boolean-flag coercion, but not
`datetime`/`date`/`time` fields, whose ISO parsers reject already-coerced
input. For such a field, a value of the declared type that passes all
attached validators is returned unchanged and nothing is raised, and
`sanitize (sanitize x) = sanitize x` whenever the inner call succeeds. -/
theorem field_sanitize_idempotent_when_coercion_fixes (F : Field)
    (hfix : ∀ c, resolve_coerce_func F.dtype F.coerce = some c →
      ∀ w, isinstance w F.dtype = true → c w = .ok w) :
    (∀ v, isinstance v F.dtype = true →
      (∀ f ∈ F.validators, ∃ r, f v = .ok r) →
      F.sanitize v = .ok v)
    ∧ (∀ x y, F.sanitize x = .ok y → F.sanitize y = .ok y) := by
  have hpass : ∀ v, isinstance v F.dtype = true →
      (∀ f ∈ F.validators, ∃ r, f v = .ok r) → F.sanitize v = .ok v := by
    intro v hv hvals
    have hcv : F.coerce_value v = .ok v := by
      rcases hrc : resolve_coerce_func F.dtype F.coerce with _ | c
      · unfold Field.coerce_value
        simp only [hrc]
        simp [hv]
      · unfold Field.coerce_value
        simp only [hrc]
        rw [hfix c hrc v hv]
        simp [hv]
    unfold Field.sanitize
    simp only [hcv, (validate_value_ok_iff F.validators v).mpr hvals]
  refine ⟨hpass, fun x y hxy => ?_⟩
  unfold Field.sanitize at hxy
  rcases hc : F.coerce_value x with e | v'
  · simp only [hc] at hxy
    exact absurd hxy (by simp)
  · simp only [hc] at hxy
    rcases hval : validate_value F.validators v' with e | u
    · simp only [hval] at hxy
      exact absurd hxy (by simp)
    · simp only [hval] at hxy
      injection hxy with h'
      subst h'
      have hy : isinstance v' F.dtype = true := coerce_value_ok_isinstance F x v' hc
      cases u
      exact hpass v' hy ((validate_value_ok_iff F.validators v').mp hval)

/-- Witness for C8 (amended): an `int` field with coercion disabled
returns an already-valid integer unchanged. -/
theorem field_sanitize_idempotent_witness :
    Field.sanitize ⟨DType.int, .flag false, []⟩ (.int 3) = .ok (.int 3) :=
  (field_sanitize_idempotent_when_coercion_fixes ⟨DType.int, .flag false, []⟩
      (fun _ hc => Option.noConfusion hc)).1 (.int 3) rfl (by simp)

/-
Embedding of schema construction (src/bluejayson/schema.py,
`BaseSchema.__init__`) and field storage (src/bluejayson/fields.py,
`BaseField.__set__`). A schema class is represented by its aggregated
field registry, binding each field name to that field's sanitizer
(`BaseField.__set__` runs `self.sanitizer(value)` and stores the result
in the instance dictionary under the field's name).
-/

/-- The `for name, value in params.items()` loop of `BaseSchema.__init__`:
a name absent from the registry raises `TypeError('unknown field ...')`;
otherwise the value is passed through the field's sanitizer
(`BaseField.__set__`, exceptions propagating) and the result is stored in
the instance dictionary. -/
def schema_init_go (fields : FieldMap (PyVal → PyRes)) :
    List (String × PyVal) → FieldMap PyVal → Except PyExc (FieldMap PyVal)
  | [], store => .ok store
  | (n, v) :: rest, store =>
    match odLookup fields n with
    | Option.none => .error (.typeError ("unknown field " ++ n))
    | some san =>
      match san v with
      | .error e => .error e
      | .ok v' => schema_init_go fields rest (odSet store n v')

/-- Embedding of `BaseSchema.__init__`: process the keyword arguments in
order starting from an empty instance dictionary. -/
def schema_init (fields : FieldMap (PyVal → PyRes)) (params : List (String × PyVal)) :
    Except PyExc (FieldMap PyVal) :=
  schema_init_go fields params []

/-- A key that is looked up successfully is a registered key. -/
theorem odLookup_some_mem {F : Type} (m : FieldMap F) (k : String) (f : F)
    (h : odLookup m k = some f) : k ∈ odKeys m := by
  unfold odLookup at h
  rcases hf : m.find? fun p => p.1 == k with _ | q
  · rw [hf] at h
    exact absurd h (by simp)
  · have hq := List.find?_some hf
    have hqm := List.mem_of_find?_eq_some hf
    have : q.1 = k := by simpa using hq
    subst this
    exact List.mem_map.mpr ⟨q, hqm, rfl⟩

/-- An unregistered key looks up to nothing. -/
theorem odLookup_eq_none_of_not_mem {F : Type} (m : FieldMap F) (k : String)
    (h : k ∉ odKeys m) : odLookup m k = Option.none := by
  unfold odLookup
  rw [List.find?_eq_none.mpr]
  · rfl
  · intro p hp hcontra
    exact h (List.mem_map.mpr ⟨p, hp, by simpa using hcontra⟩)

/-- Entries of an updated mapping come from the original mapping or are
the new binding. -/
theorem mem_odSet {F : Type} (m : FieldMap F) (k : String) (f : F) :
    ∀ q ∈ odSet m k f, q ∈ m ∨ q = (k, f) := by
  induction m with
  | nil =>
    intro q hq
    simp only [odSet] at hq
    exact Or.inr (by simpa using hq)
  | cons p m ih =>
    intro q hq
    by_cases hpk : (p.1 == k) = true
    · simp only [odSet, if_pos hpk] at hq
      rcases List.mem_cons.mp hq with rfl | hq'
      · exact Or.inr rfl
      · exact Or.inl (List.mem_cons_of_mem p hq')
    · simp only [odSet, if_neg hpk] at hq
      rcases List.mem_cons.mp hq with rfl | hq'
      · exact Or.inl (List.mem_cons_self q m)
      · rcases ih q hq' with hm | hkf
        · exact Or.inl (List.mem_cons_of_mem p hm)
        · exact Or.inr hkf

/-- C9 counterexample: with a registry whose field "a" carries a sanitizer
that raises `ValueError`, constructing with arguments `a=1, zzz=2` raises
the sanitizer's `ValueError` — not the unknown-field error — even though
"zzz" is not a registered field name. -/
theorem schema_init_unknown_after_failing_sanitizer :
    ("zzz" ∉ odKeys ([("a", fun _ => .error (.valueError "bad")),
        ("b", fun v => .ok v)] : FieldMap (PyVal → PyRes)))
    ∧ schema_init
        [("a", fun _ => .error (.valueError "bad")), ("b", fun v => .ok v)]
        [("a", .int 1), ("zzz", .int 2)]
      = .error (.valueError "bad") := by
  constructor
  · simp [odKeys]
  · rfl

/-- C9 (amended): construction processes the keyword arguments in order:
(i) when construction succeeds, every given name is a registered field;
(ii) the first unknown argument name raises the structured unknown-field
error, provided every earlier argument was accepted and its sanitizer
succeeded (an earlier sanitizer's exception propagates instead); and
(iii) every value stored on the instance is the output of the owning
field's sanitizer on a given value. -/
theorem schema_init_routes_and_rejects (fields : FieldMap (PyVal → PyRes)) :
    (∀ params store, schema_init fields params = .ok store →
      ∀ q ∈ params, q.1 ∈ odKeys fields)
    ∧ (∀ (ps₁ : List (String × PyVal)) (n : String) (v : PyVal) (ps₂ : List (String × PyVal)),
        (∀ q ∈ ps₁, ∃ san r, odLookup fields q.1 = some san ∧ san q.2 = .ok r) →
        n ∉ odKeys fields →
        schema_init fields (ps₁ ++ (n, v) :: ps₂)
          = .error (.typeError ("unknown field " ++ n)))
    ∧ (∀ params store, schema_init fields params = .ok store →
        ∀ q ∈ store, ∃ v san, (q.1, v) ∈ params ∧ odLookup fields q.1 = some san
          ∧ san v = .ok q.2) := by
  have hmem : ∀ (params : List (String × PyVal)) (store₀ store : FieldMap PyVal),
      schema_init_go fields params store₀ = .ok store →
      ∀ q ∈ params, q.1 ∈ odKeys fields := by
    intro params
    induction params with
    | nil => intro _ _ _ q hq; exact absurd hq (List.not_mem_nil q)
    | cons p rest ih =>
      intro store₀ store h q hq
      rcases hl : odLookup fields p.1 with _ | san
      · unfold schema_init_go at h
        simp only [hl] at h
        exact absurd h (by simp)
      · unfold schema_init_go at h
        simp only [hl] at h
        rcases hs : san p.2 with e | v'
        · simp only [hs] at h
          exact absurd h (by simp)
        · simp only [hs] at h
          rcases List.mem_cons.mp hq with rfl | hq'
          · exact odLookup_some_mem fields q.1 san hl
          · exact ih (odSet store₀ p.1 v') store h q hq'
  have hstore : ∀ (params : List (String × PyVal)) (store₀ store : FieldMap PyVal),
      schema_init_go fields params store₀ = .ok store →
      ∀ q ∈ store, q ∈ store₀ ∨ ∃ v san, (q.1, v) ∈ params
        ∧ odLookup fields q.1 = some san ∧ san v = .ok q.2 := by
    intro params
    induction params with
    | nil =>
      intro store₀ store h q hq
      unfold schema_init_go at h
      injection h with h'
      subst h'
      exact Or.inl hq
    | cons p rest ih =>
      intro store₀ store h q hq
      rcases hl : odLookup fields p.1 with _ | san
      · unfold schema_init_go at h
        simp only [hl] at h
        exact absurd h (by simp)
      · unfold schema_init_go at h
        simp only [hl] at h
        rcases hs : san p.2 with e | v'
        · simp only [hs] at h
          exact absurd h (by simp)
        · simp only [hs] at h
          rcases ih (odSet store₀ p.1 v') store h q hq with hq₀ | ⟨v, san', hv, hlk, hsan⟩
          · rcases mem_odSet store₀ p.1 v' q hq₀ with hq₁ | rfl
            · exact Or.inl hq₁
            · exact Or.inr ⟨p.2, san, by simp, hl, hs⟩
          · exact Or.inr ⟨v, san', List.mem_cons_of_mem p hv, hlk, hsan⟩
  have hunknown : ∀ (ps₁ : List (String × PyVal)) (n : String) (v : PyVal)
      (ps₂ : List (String × PyVal)) (store₀ : FieldMap PyVal),
      (∀ q ∈ ps₁, ∃ san r, odLookup fields q.1 = some san ∧ san q.2 = .ok r) →
      n ∉ odKeys fields →
      schema_init_go fields (ps₁ ++ (n, v) :: ps₂) store₀
        = .error (.typeError ("unknown field " ++ n)) := by
    intro ps₁
    induction ps₁ with
    | nil =>
      intro n v ps₂ store₀ _ hn
      simp only [List.nil_append]
      unfold schema_init_go
      rw [odLookup_eq_none_of_not_mem fields n hn]
    | cons p ps ih =>
      intro n v ps₂ store₀ hok hn
      obtain ⟨san, r, hlk, hsan⟩ := hok p (List.mem_cons_self p ps)
      simp only [List.cons_append]
      unfold schema_init_go
      simp only [hlk, hsan]
      exact ih n v ps₂ (odSet store₀ p.1 r) (fun q hq => hok q (List.mem_cons_of_mem p hq)) hn
  refine ⟨fun params store h => hmem params [] store h,
    fun ps₁ n v ps₂ hok hn => hunknown ps₁ n v ps₂ [] hok hn,
    fun params store h q hq => ?_⟩
  rcases hstore params [] store h q hq with hq₀ | hfound
  · exact absurd hq₀ (List.not_mem_nil q)
  · exact hfound

/-- Witness for C9 (amended): an unknown first argument name raises the
structured unknown-field error. -/
theorem schema_init_routes_and_rejects_witness :
    schema_init [("a", fun v => .ok v)] ([] ++ ("x", PyVal.none) :: [])
      = .error (.typeError ("unknown field " ++ "x")) :=
  (schema_init_routes_and_rejects [("a", fun v => .ok v)]).2.1 [] "x" PyVal.none []
    (by simp) (by simp [odKeys])

/-- C10: the boolean-flag coercion returns a `bool` input unchanged
without any string handling, and matches string input after stripping
surrounding whitespace and lowercasing, so " YES " coerces to `True` and
" off " to `False`; in general a string is matched exactly through its
stripped, lowercased form. -/
theorem coerce_boolean_flag_passthrough_and_strip :
    (∀ b : Bool, coerce_boolean_flag (.bool b) = .ok (.bool b))
    ∧ coerce_boolean_flag (.str " YES ") = .ok (.bool true)
    ∧ coerce_boolean_flag (.str " off ") = .ok (.bool false)
    ∧ (∀ s : String, coerce_boolean_flag (.str s) =
        (if pyLower (pyStrip s) ∈ ["1", "y", "yes", "true", "on"] then .ok (.bool true)
          else if pyLower (pyStrip s) ∈ ["0", "n", "no", "false", "off"] then .ok (.bool false)
          else .error (.valueError "cannot convert given value flag to boolean"))) := by
  refine ⟨fun b => rfl, ?_, ?_, fun s => rfl⟩
  · rfl
  · rfl

end BlueJayson
